import Mathlib

/-!
Verification of the babble-ssb-simulator plotting scripts.

The repository holds two standalone Python plotting scripts:
* `src/visualize-results.py` reads experiment CSV tables (rows with a network
  profile, node count, Byzantine percentage, mean/std consensus time and an
  optional failure flag), filters out failed trials, groups and pivots the
  rows, and saves one PNG per chart into a `visualizations` directory.
* `src/data/index.py` draws one grouped bar chart from literal embedded
  arrays (9 protocols by 6 fault counts) and saves a single PNG.

This file shallowly embeds the data transformations of both scripts:
pandas rows become a `Row` structure, a pandas DataFrame becomes a `Table`
(a list of rows plus flags recording which optional columns are present),
`sort_values` becomes an insertion sort, `sorted(unique(...))` becomes
sort-after-dedup, and each aggregated view (plot series, heatmap pivot
cell, 3D scatter series, faceted-grid cell) becomes the list of rows the
corresponding Python code hands to the charting call.
-/

/-! ### Generic list utilities: insertion sort and lexicographic string order

`pandas.DataFrame.sort_values` and Python `sorted` are modelled by an
insertion sort parameterised by a boolean comparison. -/

def insertLe {α : Type} (le : α → α → Bool) (a : α) : List α → List α
  | [] => [a]
  | b :: l => if le a b then a :: b :: l else b :: insertLe le a l

def sortLe {α : Type} (le : α → α → Bool) : List α → List α
  | [] => []
  | a :: l => insertLe le a (sortLe le l)

/-- Lexicographic comparison of character lists by Unicode code point,
matching how Python compares strings in `sorted`. -/
def lexLe : List Char → List Char → Bool
  | [], _ => true
  | _ :: _, [] => false
  | a :: as, b :: bs =>
    if a.toNat < b.toNat then true
    else if b.toNat < a.toNat then false
    else lexLe as bs

/-- Lexicographic order on strings (Python `str` comparison). -/
def strLe (a b : String) : Bool := lexLe a.data b.data

/-- Comparison used when Python sorts numeric values. -/
def qLe (a b : ℚ) : Bool := decide (a ≤ b)

/-- `sorted(series.unique())` on a numeric pandas column: deduplicate, then
sort ascending. -/
def uniqueSortedQ (l : List ℚ) : List ℚ := sortLe qLe l.dedup

/-- `sorted(series.unique())` on a string pandas column. -/
def uniqueSortedStr (l : List String) : List String := sortLe strLe l.dedup

/-! ### Data model of `visualize-results.py`

One CSV row of an experiment table.  `failure` is `Option Bool` because the
CSV cell may be empty, which pandas reads as NaN (`none` here); the column
itself may also be absent, which is recorded on the table, not the row. -/

structure Row where
  networkProfile : String
  nodeNum : ℚ
  byzantinePercentage : ℚ
  meanTime : ℚ
  stdTime : ℚ
  failure : Option Bool
deriving DecidableEq

/-- A pandas DataFrame as loaded from CSV: its rows plus flags recording
which optional columns exist (`failure`, `networkProfile`, `networkMean`),
since the scripts branch on `"col" in data.columns`. -/
structure Table where
  rows : List Row
  hasFailure : Bool
  hasNetworkProfile : Bool
  hasNetworkMean : Bool
deriving DecidableEq

/-- `data = data[~data["failure"].fillna(False)]` guarded by
`if "failure" in data.columns`: when the failure column exists, keep
exactly the rows whose failure value, with NaN read as False, is falsy. -/
def filterFailures (t : Table) : Table :=
  if t.hasFailure then
    { t with rows := t.rows.filter (fun r => ! (r.failure.getD false)) }
  else t

/-- `sort_values("nodeNum")`. -/
def sortByNodeNum (l : List Row) : List Row :=
  sortLe (fun a b => qLe a.nodeNum b.nodeNum) l

/-! ### Aggregated views of `visualize-results.py`

Each definition mirrors the data a specific charting call receives. -/

/-- The filtered table `plot_byzantine_impact` works on (lines 81-82). -/
def impactFiltered (t : Table) : List Row := (filterFailures t).rows

/-- `byzantine_percentages = sorted(data["byzantinePercentage"].unique())`
in `plot_byzantine_impact` (line 85). -/
def impactPercentages (t : Table) : List ℚ :=
  uniqueSortedQ ((impactFiltered t).map Row.byzantinePercentage)

/-- `percentage_data = data[data["byzantinePercentage"] == percentage]
.sort_values("nodeNum")` in `plot_byzantine_impact` (line 93): the rows
behind one error-bar line. -/
def impactSeriesRows (t : Table) (p : ℚ) : List Row :=
  sortByNodeNum ((impactFiltered t).filter
    (fun r => decide (r.byzantinePercentage = p)))

/-- The series `plot_byzantine_impact` actually draws: one entry per
percentage from `impactPercentages`, skipping empty groups
(`if len(percentage_data) == 0: continue`, lines 96-97). -/
def impactSeries (t : Table) : List (ℚ × List Row) :=
  (impactPercentages t).filterMap (fun p =>
    let g := impactSeriesRows t p
    if g.isEmpty then none else some (p, g))

/-- `percentage_data` for one subplot of `create_combined_visualization`
(lines 190-195): filter the failure-filtered data to one profile, then to
one percentage, then sort by node count. -/
def combinedSeriesRows (t : Table) (prof : String) (p : ℚ) : List Row :=
  sortByNodeNum
    ((((filterFailures t).rows.filter
        (fun r => decide (r.networkProfile = prof))).filter
      (fun r => decide (r.byzantinePercentage = p))))

/-- `percentage_data` for one 3D scatter/line series of
`create_3d_visualization` (lines 370-374). -/
def scatter3dSeriesRows (t : Table) (prof : String) (p : ℚ) : List Row :=
  sortByNodeNum
    ((((filterFailures t).rows.filter
        (fun r => decide (r.networkProfile = prof))).filter
      (fun r => decide (r.byzantinePercentage = p))))

/-- The group of rows behind one heatmap pivot cell in `create_heatmaps`
(lines 441-450): rows of the failure-filtered data with the given profile,
node count and Byzantine percentage. -/
def heatmapGroup (t : Table) (prof : String) (x y : ℚ) : List Row :=
  ((filterFailures t).rows.filter
      (fun r => decide (r.networkProfile = prof))).filter
    (fun r => decide (r.nodeNum = x) && decide (r.byzantinePercentage = y))

/-- The value of the heatmap pivot cell at (node count `x`, Byzantine
percentage `y`): `pivot_table(index="nodeNum", columns="byzantinePercentage",
values="meanTime", aggfunc="mean")`, `none` when the cell has no rows
(pandas leaves it NaN). -/
def heatmapPivotValue (t : Table) (prof : String) (x y : ℚ) : Option ℚ :=
  let g := heatmapGroup t prof x y
  if g.isEmpty then none
  else some ((g.map Row.meanTime).sum / g.length)

/-- `percentage_data` for one grid cell of
`create_comprehensive_visualization` (lines 504-510). -/
def gridCellRows (t : Table) (prof : String) (p : ℚ) : List Row :=
  sortByNodeNum
    ((((filterFailures t).rows.filter
        (fun r => decide (r.networkProfile = prof))).filter
      (fun r => decide (r.byzantinePercentage = p))))

/-- Profiles enumerated by `create_comprehensive_visualization` (line 496). -/
def comprehensiveProfiles (t : Table) : List String :=
  uniqueSortedStr ((filterFailures t).rows.map Row.networkProfile)

/-- Percentages enumerated by `create_comprehensive_visualization`
(line 497). -/
def comprehensivePercentages (t : Table) : List ℚ :=
  uniqueSortedQ ((filterFailures t).rows.map Row.byzantinePercentage)

/-- The faceted grid of `create_comprehensive_visualization`: one cell per
(profile, percentage) pair; `none` is the `"No Data"` placeholder drawn
when the group is empty (lines 513-515), `some g` is an error-bar line
through the rows `g`. -/
def comprehensiveCells (t : Table) : List (String × ℚ × Option (List Row)) :=
  (comprehensiveProfiles t).flatMap (fun prof =>
    (comprehensivePercentages t).map (fun p =>
      let g := gridCellRows t prof p
      (prof, p, if g.isEmpty then none else some g)))

/-! ### Spec-side heatmap aggregate (for the refinement claim about pivots) -/

/-- Written from the specification text, to be compared with
`heatmapPivotValue`: the arithmetic mean of `meanTime` over exactly the
non-failed rows of the table that carry the given profile, node count and
Byzantine percentage (a row is non-failed when the table has no failure
column, or its failure value with NaN read as False is falsy). -/
def specHeatmapMean (t : Table) (prof : String) (x y : ℚ) : Option ℚ :=
  let g := t.rows.filter (fun r =>
    (!t.hasFailure || !(r.failure.getD false))
      && decide (r.networkProfile = prof)
      && decide (r.nodeNum = x)
      && decide (r.byzantinePercentage = y))
  if g.isEmpty then none
  else some ((g.map Row.meanTime).sum / g.length)

/-! ### `create_normalized_scaling_plot` (lines 253-337)

The function picks `network_profiles[0]` of the sorted distinct profile
names as the profile to plot (lines 277-278), restricts the data to it
(line 280), and draws one series per Byzantine percentage. -/

/-- `network_profiles = sorted(all_data["networkProfile"].unique());
fastest_profile = network_profiles[0]` applied to the failure-filtered
rows: `none` when there are no rows at all (Python would raise
IndexError). -/
def fastestProfile (rows : List Row) : Option String :=
  (uniqueSortedStr (rows.map Row.networkProfile)).head?

/-- `profile_data = all_data[all_data["networkProfile"] == fastest_profile]`
(line 280); empty when the table has no rows. -/
def normalizedProfileData (t : Table) : List Row :=
  match fastestProfile (filterFailures t).rows with
  | none => []
  | some fastest =>
      (filterFailures t).rows.filter (fun r => decide (r.networkProfile = fastest))

/-- The rows behind one normalized-scaling series (line 283). -/
def normalizedSeriesRows (t : Table) (p : ℚ) : List Row :=
  sortByNodeNum ((normalizedProfileData t).filter
    (fun r => decide (r.byzantinePercentage = p)))

/-! The set of columns of a DataFrame matters for the tail of
`create_normalized_scaling_plot`: line 290 assigns the derived column
`time_per_node` on `percentage_data`, and line 307 reads
`profile_data["time_per_node"]`.  In pandas, boolean-mask indexing
(`df[mask]`) returns a new copy, so assigning a column on that copy never
adds it to the frame the mask was applied to (this is exactly what the
SettingWithCopyWarning warns about); the Python variable `profile_data` is
never reassigned inside the loop.  `DF` tracks the derived columns a frame
carries on top of the base CSV columns. -/

structure DF where
  rows : List Row
  derivedCols : List String
deriving DecidableEq

/-- `df[mask]`: boolean-mask indexing returns a fresh copy holding the
matching rows and the same columns. -/
def DF.filterCopy (d : DF) (p : Row → Bool) : DF :=
  { rows := d.rows.filter p, derivedCols := d.derivedCols }

/-- `df["c"] = ...` for a new derived column `c`: adds it to this frame
(and, the frame being a copy, to no other). -/
def DF.assignCol (d : DF) (c : String) : DF :=
  { d with derivedCols := c :: d.derivedCols }

/-- `"c" in df.columns` for a derived (non-CSV) column. -/
def DF.hasDerivedCol (d : DF) (c : String) : Bool :=
  d.derivedCols.contains c

/-- `create_normalized_scaling_plot` (lines 253-337), embedded as the
sequence of operations it performs on the loaded table, with `Except`
recording the Python exception it would raise.  After the early return for
a missing file (lines 259-261) and the failure filter (lines 264-265), it
takes `network_profiles[0]` (line 278, IndexError on an empty frame),
builds `percentage_data` as a copy of a boolean-mask filter of
`profile_data` and assigns `time_per_node` on that copy (lines 283-290),
and finally reads `profile_data["time_per_node"]` for the reference-line
scaling factor (line 307), which raises KeyError because `profile_data`
never received that column. -/
def create_normalized_scaling_plot (loaded : Option Table) : Except String Unit :=
  match loaded with
  | none => Except.ok ()
  | some all_data =>
    let ad := filterFailures all_data
    let byzantine_percentages := uniqueSortedQ (ad.rows.map Row.byzantinePercentage)
    match uniqueSortedStr (ad.rows.map Row.networkProfile) with
    | [] => Except.error "IndexError: list index out of range"
    | fastest_profile :: _ =>
      let profile_data : DF :=
        ⟨ad.rows.filter (fun r => decide (r.networkProfile = fastest_profile)), []⟩
      let _series := byzantine_percentages.map (fun p =>
        (profile_data.filterCopy
          (fun r => decide (r.byzantinePercentage = p))).assignCol "time_per_node")
      if profile_data.hasDerivedCol "time_per_node" then
        Except.ok ()
      else
        Except.error "KeyError: time_per_node"

/-! ### Combining individual files in `create_combined_visualization`
(lines 158-172) -/

/-- `os.path.splitext(file)[0]`: drop the extension, splitting at the last
dot that is preceded by some non-dot character. -/
def lastIdxOf (c : Char) : List Char → Option Nat
  | [] => none
  | x :: xs =>
    match lastIdxOf c xs with
    | some i => some (i + 1)
    | none => if x == c then some 0 else none

def splitextBase (s : String) : String :=
  match lastIdxOf '.' s.data with
  | none => s
  | some i =>
    if (s.data.take i).any (fun c => c != '.') then String.mk (s.data.take i)
    else s

/-- Lines 168-171: before concatenation, a loaded table is given a
`networkProfile` column holding the source filename without its extension,
but only when it lacks both the `networkProfile` and the `networkMean`
column. -/
def tagFile (file : String) (t : Table) : Table :=
  if !t.hasNetworkProfile && !t.hasNetworkMean then
    { t with
      rows := t.rows.map (fun r => { r with networkProfile := splitextBase file }),
      hasNetworkProfile := true }
  else t

/-- The fallback combine loop (lines 164-172): start from an empty frame
and concatenate each successfully loaded, tagged table. -/
def combineFiles (files : List (String × Option Table)) : List Row :=
  files.foldl (fun acc fd =>
    match fd.2 with
    | none => acc
    | some t => acc ++ (tagFile fd.1 t).rows) []

/-! ### The data loader (`load_data`, lines 40-45) and output paths -/

def RESULTS_DIR : String := "results"

def OUTPUT_DIR : String := "visualizations"

/-- `os.path.join` for the simple relative names the scripts use. -/
def pathJoin (a b : String) : String := a ++ "/" ++ b

/-- `load_data`: build the path under the results directory, return `none`
(after a printed warning) when no file exists there, and the parsed table
otherwise.  The filesystem is a finite map from paths to parsed tables. -/
def load_data (files : List (String × Table)) (filename : String) : Option Table :=
  let filepath := pathJoin RESULTS_DIR filename
  if (files.map Prod.fst).contains filepath then
    files.lookup filepath
  else
    none

/-- Module-level guard of `visualize-results.py` (lines 36-37):
`if not os.path.exists(OUTPUT_DIR): os.makedirs(OUTPUT_DIR)` on the set of
existing directories. -/
def ensureOutputDir (dirs : List String) : List String :=
  if dirs.contains OUTPUT_DIR then dirs else OUTPUT_DIR :: dirs

/-- `os.path.dirname`: everything before the last slash, `""` (the current
working directory) when the path has no slash. -/
def dirname (s : String) : String :=
  match lastIdxOf '/' s.data with
  | none => ""
  | some i => String.mk (s.data.take i)

/-- Save path of `plot_byzantine_impact` (line 145). -/
def byzantineImpactOutput (profile : String) : String :=
  pathJoin OUTPUT_DIR (profile ++ "_byzantine_impact.png")

/-- Save path of `create_heatmaps` (line 475). -/
def heatmapOutput (profile : String) : String :=
  pathJoin OUTPUT_DIR (profile ++ "_heatmap.png")

/-- Save path of `create_combined_visualization` (line 247). -/
def combinedOutput : String := pathJoin OUTPUT_DIR "combined_network_profiles.png"

/-- Save path of `create_normalized_scaling_plot` (line 334). -/
def normalizedScalingOutput : String := pathJoin OUTPUT_DIR "normalized_scaling.png"

/-- Save path of `create_3d_visualization` (line 417). -/
def threeDOutput : String := pathJoin OUTPUT_DIR "3d_visualization.png"

/-- Save path of `create_comprehensive_visualization` (line 552). -/
def comprehensiveOutput : String := pathJoin OUTPUT_DIR "comprehensive_visualization.png"

/-- Save path of `src/data/index.py` (line 109): a bare filename, resolved
against the current working directory. -/
def indexFigOutput : String := "updated_fig7_with_ssb_babble.png"

/-! ### `src/data/index.py`: the static grouped bar chart

The literal arrays of the script, embedded verbatim (times in seconds as
exact rationals). -/

namespace IndexFig

def protocols : List String :=
  ["ADD+v1", "ADD+v2", "ADD+v3", "Algorand", "Async BA",
   "PBFT", "HotStuff+NSL", "LibraBFT", "SSB-Babble"]

def ssb_babble_means : List ℚ :=
  [3341.91 / 1000, 3413.89 / 1000, 3576.63 / 1000,
   3742.82 / 1000, 4002.25 / 1000, 4423.41 / 1000]

def ssb_babble_stds : List ℚ :=
  [115 / 1000, 139 / 1000, 178 / 1000, 232 / 1000, 246 / 1000, 400 / 1000]

def f_values : List Nat := [0, 1, 2, 3, 4, 5]

def data : List (List ℚ) :=
  [[7, 7.1, 7.2, 7.3, 7.4, 7.5],
   [7, 7.1, 7.2, 7.3, 7.4, 7.5],
   [13.5, 13.7, 13.8, 14, 14.1, 14.2],
   [4.5, 4.6, 4.7, 4.8, 5, 5.8],
   [13, 13.2, 13.4, 13.6, 13.8, 12.2],
   [3.3, 3.5, 3.7, 3.9, 4.3, 5],
   [2.5, 3, 3.5, 4, 5, 25],
   [2.2, 2.5, 3.5, 3.7, 6, 6.3],
   ssb_babble_means]

def std_data : List (List ℚ) :=
  [[0.3, 0.3, 0.4, 0.4, 0.4, 0.4],
   [1, 1, 1, 1, 0.8, 0.8],
   [1.5, 1.5, 2, 2, 2, 2],
   [0.2, 0.2, 0.2, 0.2, 0.3, 1.5],
   [4, 4, 3.5, 3.5, 3, 3],
   [0.1, 0.1, 0.2, 0.3, 0.5, 0.8],
   [0.1, 0.1, 0.2, 0.3, 0.7, 1],
   [0.1, 0.1, 0.2, 0.2, 0.3, 0.3],
   ssb_babble_stds]

/-- The numpy column slice `m[:, i]`. -/
def column (m : List (List ℚ)) (i : Nat) : List ℚ :=
  m.map (fun row => row.getD i 0)

/-- One rectangle drawn by `ax.bar`, with the half-length of its error bar
(`yerr`). -/
structure Bar where
  protoIdx : Nat
  faultIdx : Nat
  height : ℚ
  yerr : ℚ
deriving DecidableEq

/-- The bars of the i-th `ax.bar` call (line 86): `x` has one position per
protocol, heights are `data[:, i]` and error bars `std_data[:, i]`. -/
def barsOfCall (i : Nat) : List Bar :=
  (List.range protocols.length).map (fun p =>
    { protoIdx := p, faultIdx := i,
      height := (column data i).getD p 0,
      yerr := (column std_data i).getD p 0 })

/-- All bars the figure holds: one `ax.bar` call per entry of `f_values`
(lines 85-88). -/
def figBars : List Bar :=
  (List.range f_values.length).flatMap barsOfCall

/-- `std_data[p][f]`. -/
def stdEntry (p f : Nat) : ℚ := (std_data.getD p []).getD f 0

end IndexFig

/-! ### Concrete example data used by the witness theorems -/

def exRowA : Row :=
  { networkProfile := "lan", nodeNum := 4, byzantinePercentage := 10,
    meanTime := 100, stdTime := 5, failure := some false }

def exRowB : Row :=
  { networkProfile := "lan", nodeNum := 8, byzantinePercentage := 10,
    meanTime := 200, stdTime := 7, failure := none }

def exRowC : Row :=
  { networkProfile := "wan", nodeNum := 4, byzantinePercentage := 10,
    meanTime := 300, stdTime := 9, failure := some false }

def exRowFail : Row :=
  { networkProfile := "wan", nodeNum := 8, byzantinePercentage := 20,
    meanTime := 400, stdTime := 11, failure := some true }

def exTable : Table :=
  { rows := [exRowA, exRowB, exRowC, exRowFail],
    hasFailure := true, hasNetworkProfile := true, hasNetworkMean := true }

/-- `exTable` with every measured time changed but the same profile column
and the same failure flags. -/
def exTableSpeeds : Table :=
  { rows :=
      [{ exRowA with meanTime := 900 }, { exRowB with meanTime := 800 },
       { exRowC with meanTime := 700 }, { exRowFail with meanTime := 600 }],
    hasFailure := true, hasNetworkProfile := true, hasNetworkMean := true }

/-- A table without a failure column. -/
def exNoFailTable : Table :=
  { rows := [exRowA, exRowC],
    hasFailure := false, hasNetworkProfile := true, hasNetworkMean := true }

/-- A loaded CSV that lacks the `networkProfile` column but carries
`networkMean`; its row values stand for whatever pandas would hold there. -/
def ceMeanOnlyTable : Table :=
  { rows := [{ networkProfile := "placeholder", nodeNum := 4,
               byzantinePercentage := 10, meanTime := 100, stdTime := 5,
               failure := none }],
    hasFailure := false, hasNetworkProfile := false, hasNetworkMean := true }

/-- A loaded CSV that lacks both the `networkProfile` and the
`networkMean` column. -/
def ceBothMissingTable : Table :=
  { rows := [{ networkProfile := "placeholder", nodeNum := 4,
               byzantinePercentage := 10, meanTime := 100, stdTime := 5,
               failure := none }],
    hasFailure := false, hasNetworkProfile := false, hasNetworkMean := false }

/-- A one-file results directory for the loader witness. -/
def exFiles : List (String × Table) := [("results/all-experiments.csv", exTable)]

/-! ### Theorems -/

theorem mem_insertLe {α : Type} (le : α → α → Bool) (a x : α) :
    ∀ l : List α, x ∈ insertLe le a l ↔ x = a ∨ x ∈ l := by
  intro l
  induction l with
  | nil => simp [insertLe]
  | cons b l ih =>
    simp only [insertLe]
    split
    · simp
    · simp only [List.mem_cons, ih]
      tauto

theorem mem_sortLe {α : Type} (le : α → α → Bool) (x : α) :
    ∀ l : List α, x ∈ sortLe le l ↔ x ∈ l := by
  intro l
  induction l with
  | nil => simp [sortLe]
  | cons a l ih =>
    simp only [sortLe, mem_insertLe, ih, List.mem_cons]

/-- The head of an insertion-sorted list is a least element, provided the
comparison is total and transitive. -/
theorem sortLe_head_min {α : Type} (le : α → α → Bool)
    (htot : ∀ a b, le a b = true ∨ le b a = true)
    (htrans : ∀ a b c, le a b = true → le b c = true → le a c = true) :
    ∀ l : List α, l ≠ [] →
      ∃ a t, sortLe le l = a :: t ∧ a ∈ l ∧ ∀ x ∈ l, le a x = true := by
  intro l
  induction l with
  | nil => intro h; exact absurd rfl h
  | cons b l ih =>
    intro _
    cases hl : l with
    | nil =>
      refine ⟨b, [], by simp [sortLe, insertLe], by simp, ?_⟩
      intro x hx
      simp only [hl, List.mem_singleton] at hx
      subst hx
      rcases htot x x with h | h <;> exact h
    | cons c l2 =>
      obtain ⟨a, t, hsort, hmem, hmin⟩ := ih (by simp [hl])
      rw [hl] at hsort hmem hmin
      show ∃ a' t', insertLe le b (sortLe le (c :: l2)) = a' :: t' ∧ _
      rw [hsort]
      simp only [insertLe]
      by_cases hba : le b a = true
      · refine ⟨b, a :: t, by simp [hba], by simp, ?_⟩
        intro x hx
        rcases List.mem_cons.mp hx with h | h
        · subst h
          rcases htot x x with h | h <;> exact h
        · exact htrans b a x hba (hmin x h)
      · have hab : le a b = true := (htot b a).resolve_left hba
        refine ⟨a, insertLe le b t, by simp [hba], List.mem_cons_of_mem b hmem, ?_⟩
        intro x hx
        rcases List.mem_cons.mp hx with h | h
        · subst h; exact hab
        · exact hmin x h

theorem lexLe_total : ∀ a b : List Char, lexLe a b = true ∨ lexLe b a = true := by
  intro a
  induction a with
  | nil => intro b; left; rfl
  | cons x as ih =>
    intro b
    cases b with
    | nil => right; rfl
    | cons y bs =>
      simp only [lexLe]
      rcases Nat.lt_trichotomy x.toNat y.toNat with h | h | h
      · left; simp [h]
      · have h1 : ¬ x.toNat < y.toNat := by omega
        have h2 : ¬ y.toNat < x.toNat := by omega
        rcases ih bs with hl | hr
        · left; simp [h1, h2, hl]
        · right; simp [h1, h2, hr]
      · right; simp [h, Nat.lt_asymm h]

theorem lexLe_trans : ∀ a b c : List Char,
    lexLe a b = true → lexLe b c = true → lexLe a c = true := by
  intro a
  induction a with
  | nil => intro b c _ _; rfl
  | cons x as ih =>
    intro b c hab hbc
    cases b with
    | nil => simp [lexLe] at hab
    | cons y bs =>
      cases c with
      | nil => simp [lexLe] at hbc
      | cons z cs =>
        simp only [lexLe] at hab hbc ⊢
        by_cases hxy : x.toNat < y.toNat
        · by_cases hyz : y.toNat < z.toNat
          · simp [show x.toNat < z.toNat by omega]
          · by_cases hzy : z.toNat < y.toNat
            · simp [hyz, hzy] at hbc
            · have : y.toNat = z.toNat := by omega
              simp [show x.toNat < z.toNat by omega]
        · by_cases hyx : y.toNat < x.toNat
          · simp [hxy, hyx] at hab
          · have hxyEq : x.toNat = y.toNat := by omega
            by_cases hyz : y.toNat < z.toNat
            · simp [show x.toNat < z.toNat by omega]
            · by_cases hzy : z.toNat < y.toNat
              · simp [hyz, hzy] at hbc
              · have : y.toNat = z.toNat := by omega
                have h1 : ¬ x.toNat < z.toNat := by omega
                have h2 : ¬ z.toNat < x.toNat := by omega
                simp only [hxy, hyx, if_neg, ite_false] at hab
                simp only [hyz, hzy, if_neg, ite_false] at hbc
                simp [h1, h2, ih bs cs hab hbc]

theorem strLe_total (a b : String) : strLe a b = true ∨ strLe b a = true :=
  lexLe_total a.data b.data

theorem strLe_trans (a b c : String) :
    strLe a b = true → strLe b c = true → strLe a c = true :=
  lexLe_trans a.data b.data c.data

theorem mem_uniqueSortedQ (x : ℚ) (l : List ℚ) :
    x ∈ uniqueSortedQ l ↔ x ∈ l := by
  unfold uniqueSortedQ
  rw [mem_sortLe, List.mem_dedup]

theorem mem_uniqueSortedStr (x : String) (l : List String) :
    x ∈ uniqueSortedStr l ↔ x ∈ l := by
  unfold uniqueSortedStr
  rw [mem_sortLe, List.mem_dedup]

theorem mem_sortByNodeNum (r : Row) (l : List Row) :
    r ∈ sortByNodeNum l ↔ r ∈ l :=
  mem_sortLe _ r l

theorem mem_filterFailures_of_hasFailure (t : Table) (r : Row)
    (hcol : t.hasFailure = true) :
    r ∈ (filterFailures t).rows ↔ r ∈ t.rows ∧ r.failure ≠ some true := by
  simp only [filterFailures, hcol, if_true, List.mem_filter]
  constructor
  · rintro ⟨hmem, hkeep⟩
    refine ⟨hmem, ?_⟩
    intro hfail
    rw [hfail] at hkeep
    simp [Option.getD] at hkeep
  · rintro ⟨hmem, hfail⟩
    refine ⟨hmem, ?_⟩
    cases hf : r.failure with
    | none => simp [Option.getD]
    | some b =>
      cases b with
      | false => simp [Option.getD]
      | true => exact absurd hf hfail

set_option maxHeartbeats 2000000 in
/-- C5: run on the embedded literal arrays (9 protocols by 6 fault counts),
the static-figure generator produces exactly 54 bars, and the error-bar
height of every bar equals the supplied standard-deviation table entry
`std_data[p][f]`, which is non-negative. -/
theorem indexFig_bars_count_and_errorbars :
    IndexFig.figBars.length = 54 ∧
    ∀ b ∈ IndexFig.figBars,
      b.yerr = IndexFig.stdEntry b.protoIdx b.faultIdx ∧ 0 ≤ b.yerr := by
  refine ⟨rfl, ?_⟩
  intro b hb
  have h6 : List.range IndexFig.f_values.length = [0, 1, 2, 3, 4, 5] := rfl
  have h9 : List.range IndexFig.protocols.length =
      [0, 1, 2, 3, 4, 5, 6, 7, 8] := rfl
  simp only [IndexFig.figBars, h6, IndexFig.barsOfCall, h9,
    List.flatMap_cons, List.flatMap_nil, List.map_cons, List.map_nil,
    List.append_nil, List.mem_append, List.mem_cons, List.not_mem_nil,
    or_false] at hb
  rcases hb with (rfl|rfl|rfl|rfl|rfl|rfl|rfl|rfl|rfl)|(rfl|rfl|rfl|rfl|rfl|rfl|rfl|rfl|rfl)|(rfl|rfl|rfl|rfl|rfl|rfl|rfl|rfl|rfl)|(rfl|rfl|rfl|rfl|rfl|rfl|rfl|rfl|rfl)|(rfl|rfl|rfl|rfl|rfl|rfl|rfl|rfl|rfl)|(rfl|rfl|rfl|rfl|rfl|rfl|rfl|rfl|rfl)
  all_goals exact ⟨rfl, by norm_num [IndexFig.column, IndexFig.std_data,
    IndexFig.ssb_babble_stds]⟩

theorem filterFailures_rows_of_no_column (t : Table) (h : t.hasFailure = false) :
    (filterFailures t).rows = t.rows := by
  simp [filterFailures, h]

/-- C1: for every input table carrying a failure column, a row whose
failure flag is true is excluded by the failure filter and is therefore
absent from every aggregated view derived from the table: the plotted
series of the per-profile and combined charts, the 3D scatter series, the
heatmap pivot groups, and the grid cells of the comprehensive chart. -/
theorem failed_row_absent_from_all_views
    (t : Table) (r : Row) (p : ℚ) (prof : String) (x y : ℚ)
    (hcol : t.hasFailure = true) (hfail : r.failure = some true) :
    r ∉ impactFiltered t ∧
    r ∉ impactSeriesRows t p ∧
    r ∉ combinedSeriesRows t prof p ∧
    r ∉ scatter3dSeriesRows t prof p ∧
    r ∉ heatmapGroup t prof x y ∧
    r ∉ gridCellRows t prof p := by
  have hnot : r ∉ (filterFailures t).rows := by
    intro hmem
    exact ((mem_filterFailures_of_hasFailure t r hcol).mp hmem).2 hfail
  refine ⟨hnot, ?_, ?_, ?_, ?_, ?_⟩
  · intro h
    rw [impactSeriesRows, mem_sortByNodeNum] at h
    exact hnot (List.mem_filter.mp h).1
  · intro h
    rw [combinedSeriesRows, mem_sortByNodeNum] at h
    exact hnot (List.mem_filter.mp (List.mem_filter.mp h).1).1
  · intro h
    rw [scatter3dSeriesRows, mem_sortByNodeNum] at h
    exact hnot (List.mem_filter.mp (List.mem_filter.mp h).1).1
  · intro h
    exact hnot (List.mem_filter.mp (List.mem_filter.mp h).1).1
  · intro h
    rw [gridCellRows, mem_sortByNodeNum] at h
    exact hnot (List.mem_filter.mp (List.mem_filter.mp h).1).1

theorem failed_row_absent_witness :
    exRowFail ∉ impactFiltered exTable ∧
    exRowFail ∉ impactSeriesRows exTable 20 ∧
    exRowFail ∉ combinedSeriesRows exTable "wan" 20 ∧
    exRowFail ∉ scatter3dSeriesRows exTable "wan" 20 ∧
    exRowFail ∉ heatmapGroup exTable "wan" 8 20 ∧
    exRowFail ∉ gridCellRows exTable "wan" 20 :=
  failed_row_absent_from_all_views exTable exRowFail 20 "wan" 8 20 rfl rfl

theorem heatmapGroup_eq_spec (t : Table) (prof : String) (x y : ℚ) :
    heatmapGroup t prof x y = t.rows.filter (fun r =>
      (!t.hasFailure || !(r.failure.getD false))
        && decide (r.networkProfile = prof)
        && decide (r.nodeNum = x)
        && decide (r.byzantinePercentage = y)) := by
  unfold heatmapGroup filterFailures
  by_cases h : t.hasFailure = true
  · rw [if_pos h]
    simp only [List.filter_filter]
    apply List.filter_congr
    intro a _
    rw [h]
    simp only [Bool.not_true, Bool.false_or]
    cases a.failure.getD false <;>
      cases hp : decide (a.networkProfile = prof) <;>
      cases hx : decide (a.nodeNum = x) <;>
      cases hy : decide (a.byzantinePercentage = y) <;> simp
  · rw [if_neg h]
    have hf : t.hasFailure = false := Bool.not_eq_true _ ▸ eq_false_of_ne_true h
    simp only [List.filter_filter]
    apply List.filter_congr
    intro a _
    rw [hf]
    simp only [Bool.not_false, Bool.true_or]
    cases hp : decide (a.networkProfile = prof) <;>
      cases hx : decide (a.nodeNum = x) <;>
      cases hy : decide (a.byzantinePercentage = y) <;> simp

/-- C3: for a fixed input table, the heatmap pivot value at (node count,
Byzantine percentage) within a network profile is the arithmetic mean of
`meanTime` over exactly the non-failed rows of that profile with that node
count and that Byzantine percentage. -/
theorem heatmap_pivot_equals_spec_mean (t : Table) (prof : String) (x y : ℚ) :
    heatmapPivotValue t prof x y = specHeatmapMean t prof x y := by
  unfold heatmapPivotValue specHeatmapMean
  rw [heatmapGroup_eq_spec]

/-- C9: in a table with a failure column, a row whose failure value is
missing (NaN) is treated as not failed: it survives the failure filter and
appears in the aggregated views keyed by its own profile, node count and
Byzantine percentage.  A row is dropped exactly when its failure value is
truthy, and a table without a failure column keeps all its rows. -/
theorem nan_failure_row_retained
    (t t2 : Table) (r r2 : Row)
    (hcol : t.hasFailure = true) (hmem : r ∈ t.rows) (hnan : r.failure = none)
    (h2 : t2.hasFailure = false) :
    r ∈ (filterFailures t).rows ∧
    r ∈ impactSeriesRows t r.byzantinePercentage ∧
    r ∈ heatmapGroup t r.networkProfile r.nodeNum r.byzantinePercentage ∧
    r ∈ gridCellRows t r.networkProfile r.byzantinePercentage ∧
    (filterFailures t2).rows = t2.rows ∧
    (r2 ∈ (filterFailures t).rows ↔ r2 ∈ t.rows ∧ r2.failure ≠ some true) := by
  have hr : r ∈ (filterFailures t).rows :=
    (mem_filterFailures_of_hasFailure t r hcol).mpr ⟨hmem, by simp [hnan]⟩
  refine ⟨hr, ?_, ?_, ?_, filterFailures_rows_of_no_column t2 h2,
    mem_filterFailures_of_hasFailure t r2 hcol⟩
  · rw [impactSeriesRows, mem_sortByNodeNum]
    exact List.mem_filter.mpr ⟨hr, by simp⟩
  · exact List.mem_filter.mpr ⟨List.mem_filter.mpr ⟨hr, by simp⟩, by simp⟩
  · rw [gridCellRows, mem_sortByNodeNum]
    exact List.mem_filter.mpr ⟨List.mem_filter.mpr ⟨hr, by simp⟩, by simp⟩

theorem nan_failure_row_retained_witness :
    exRowB ∈ (filterFailures exTable).rows ∧
    exRowB ∈ impactSeriesRows exTable exRowB.byzantinePercentage ∧
    exRowB ∈ heatmapGroup exTable exRowB.networkProfile exRowB.nodeNum
      exRowB.byzantinePercentage ∧
    exRowB ∈ gridCellRows exTable exRowB.networkProfile
      exRowB.byzantinePercentage ∧
    (filterFailures exNoFailTable).rows = exNoFailTable.rows ∧
    (exRowFail ∈ (filterFailures exTable).rows ↔
      exRowFail ∈ exTable.rows ∧ exRowFail.failure ≠ some true) :=
  nan_failure_row_retained exTable exNoFailTable exRowB exRowFail rfl
    (List.mem_cons_of_mem _ (List.mem_cons_self _ _)) rfl rfl

/-- C6: an aggregation key with at least one row after failure filtering
contributes a series to the chart, and a key with zero rows contributes no
series (the renderer skips the group): shown for the per-profile Byzantine
impact chart and for the comprehensive faceted grid. -/
theorem series_present_iff_group_nonempty
    (t : Table) (prof : String) (p : ℚ) (s : List Row) :
    (impactSeriesRows t p ≠ [] → (p, impactSeriesRows t p) ∈ impactSeries t) ∧
    (impactSeriesRows t p = [] → (p, s) ∉ impactSeries t) ∧
    (gridCellRows t prof p ≠ [] →
      (prof, p, some (gridCellRows t prof p)) ∈ comprehensiveCells t) ∧
    (gridCellRows t prof p = [] → (prof, p, some s) ∉ comprehensiveCells t) := by
  refine ⟨?_, ?_, ?_, ?_⟩
  · intro hne
    obtain ⟨r, hr⟩ := List.exists_mem_of_ne_nil _ hne
    have hr2 := hr
    rw [impactSeriesRows, mem_sortByNodeNum, List.mem_filter] at hr2
    obtain ⟨hrf, hrp⟩ := hr2
    have hrp : r.byzantinePercentage = p := of_decide_eq_true hrp
    have hp : p ∈ impactPercentages t := by
      rw [impactPercentages, mem_uniqueSortedQ]
      exact hrp ▸ List.mem_map_of_mem Row.byzantinePercentage hrf
    rw [impactSeries]
    refine List.mem_filterMap.mpr ⟨p, hp, ?_⟩
    simp only
    rw [if_neg (by simpa [List.isEmpty_iff] using hne)]
  · intro hz hmemb
    simp only [impactSeries, List.mem_filterMap] at hmemb
    obtain ⟨q, _, hfq⟩ := hmemb
    by_cases hqe : (impactSeriesRows t q).isEmpty = true
    · rw [if_pos hqe] at hfq
      exact Option.noConfusion hfq
    · rw [if_neg hqe] at hfq
      have hfq := Option.some.inj hfq
      have hqp : q = p := congrArg Prod.fst hfq
      subst hqp
      exact hqe (by simp [hz])
  · intro hne
    obtain ⟨r, hr⟩ := List.exists_mem_of_ne_nil _ hne
    have hr2 := hr
    rw [gridCellRows, mem_sortByNodeNum, List.mem_filter] at hr2
    obtain ⟨hr3, hrp⟩ := hr2
    rw [List.mem_filter] at hr3
    obtain ⟨hrf, hrprof⟩ := hr3
    have hrp : r.byzantinePercentage = p := of_decide_eq_true hrp
    have hrprof : r.networkProfile = prof := of_decide_eq_true hrprof
    have hpm : prof ∈ comprehensiveProfiles t := by
      rw [comprehensiveProfiles, mem_uniqueSortedStr]
      exact hrprof ▸ List.mem_map_of_mem Row.networkProfile hrf
    have hpp : p ∈ comprehensivePercentages t := by
      rw [comprehensivePercentages, mem_uniqueSortedQ]
      exact hrp ▸ List.mem_map_of_mem Row.byzantinePercentage hrf
    rw [comprehensiveCells]
    refine List.mem_flatMap.mpr ⟨prof, hpm, List.mem_map.mpr ⟨p, hpp, ?_⟩⟩
    simp only
    rw [if_neg (by simpa [List.isEmpty_iff] using hne)]
  · intro hz hmemb
    simp only [comprehensiveCells, List.mem_flatMap, List.mem_map] at hmemb
    obtain ⟨prof2, _, p2, _, heq⟩ := hmemb
    have h1 : prof2 = prof := congrArg Prod.fst heq
    have h2 : p2 = p := congrArg (fun z => z.2.1) heq
    have h3 := congrArg (fun z => z.2.2) heq
    subst h1
    subst h2
    simp only at h3
    by_cases hqe : (gridCellRows t prof2 p2).isEmpty = true
    · rw [if_pos hqe] at h3
      exact Option.noConfusion h3
    · exact hqe (by simp [hz])

theorem series_present_witness :
    ((10 : ℚ), impactSeriesRows exTable 10) ∈ impactSeries exTable ∧
    ("wan", (10 : ℚ), some (gridCellRows exTable "wan" 10)) ∈
      comprehensiveCells exTable :=
  ⟨(series_present_iff_group_nonempty exTable "wan" 10 []).1 (by decide),
   (series_present_iff_group_nonempty exTable "wan" 10 []).2.2.1 (by decide)⟩

/-- C10: the normalized scaling plot draws data of exactly one network
profile, namely the one whose name sorts first lexicographically among the
distinct profile names of the (failure-filtered) data; the choice reads
only the profile column, so any table with the same profile column —
whatever its measured times — yields the same choice. -/
theorem normalized_scaling_profile_is_lex_first
    (t t2 : Table) (fastest : String)
    (hfp : fastestProfile (filterFailures t).rows = some fastest)
    (hsame : (filterFailures t2).rows.map Row.networkProfile
           = (filterFailures t).rows.map Row.networkProfile) :
    fastest ∈ (filterFailures t).rows.map Row.networkProfile ∧
    ((filterFailures t).rows.map Row.networkProfile).all
      (fun q => strLe fastest q) = true ∧
    (normalizedProfileData t).all
      (fun r => decide (r.networkProfile = fastest)) = true ∧
    normalizedProfileData t ≠ [] ∧
    fastestProfile (filterFailures t2).rows = some fastest := by
  have hne : ((filterFailures t).rows.map Row.networkProfile).dedup ≠ [] := by
    intro h
    rw [fastestProfile, uniqueSortedStr, h] at hfp
    exact Option.noConfusion hfp
  obtain ⟨a, tl, hsort, hmem, hmin⟩ :=
    sortLe_head_min strLe strLe_total strLe_trans _ hne
  have ha : a = fastest := by
    rw [fastestProfile, uniqueSortedStr, hsort] at hfp
    exact Option.some.inj hfp
  subst ha
  refine ⟨List.mem_dedup.mp hmem, ?_, ?_, ?_, ?_⟩
  · exact List.all_eq_true.mpr (fun q hq => hmin q (List.mem_dedup.mpr hq))
  · simp only [normalizedProfileData, hfp]
    exact List.all_eq_true.mpr (fun r hr => (List.mem_filter.mp hr).2)
  · obtain ⟨r, hrmem, hrprof⟩ := List.mem_map.mp (List.mem_dedup.mp hmem)
    simp only [normalizedProfileData, hfp]
    exact List.ne_nil_of_mem
      (List.mem_filter.mpr ⟨hrmem, decide_eq_true hrprof⟩)
  · rw [fastestProfile, uniqueSortedStr, hsame]
    rw [fastestProfile, uniqueSortedStr] at hfp
    exact hfp

theorem normalized_scaling_profile_witness :
    "lan" ∈ (filterFailures exTable).rows.map Row.networkProfile ∧
    ((filterFailures exTable).rows.map Row.networkProfile).all
      (fun q => strLe "lan" q) = true ∧
    (normalizedProfileData exTable).all
      (fun r => decide (r.networkProfile = "lan")) = true ∧
    normalizedProfileData exTable ≠ [] ∧
    fastestProfile (filterFailures exTableSpeeds).rows = some "lan" :=
  normalized_scaling_profile_is_lex_first exTable exTableSpeeds "lan"
    (by decide) (by decide)

/-- C2 (code bug): `create_normalized_scaling_plot` never reaches its
save: on a missing file it returns early, but for every loaded table it
raises — an IndexError when the filtered frame is empty, and otherwise the
KeyError on `profile_data["time_per_node"]` at line 307, because line 290
assigned that column to the boolean-mask copy `percentage_data` instead of
`profile_data`.  In particular it raises the KeyError on a well-formed
one-profile table. -/
theorem normalized_scaling_plot_always_raises :
    (∀ t : Table, ∃ e, create_normalized_scaling_plot (some t) = Except.error e) ∧
    create_normalized_scaling_plot none = Except.ok () ∧
    create_normalized_scaling_plot (some exTable) =
      Except.error "KeyError: time_per_node" := by
  refine ⟨?_, rfl, rfl⟩
  intro t
  simp only [create_normalized_scaling_plot]
  cases h : uniqueSortedStr ((filterFailures t).rows.map Row.networkProfile) with
  | nil => exact ⟨"IndexError: list index out of range", rfl⟩
  | cons a as => exact ⟨"KeyError: time_per_node", rfl⟩

/-- C4 counterexample: a combined-path input file whose table lacks the
`networkProfile` column but has a `networkMean` column is NOT tagged with
its source-derived profile name — `tagFile` leaves the table untouched,
because line 169 requires both columns to be absent. -/
theorem tagFile_skips_file_with_networkMean_only :
    ceMeanOnlyTable.hasNetworkProfile = false ∧
    tagFile "wan.csv" ceMeanOnlyTable = ceMeanOnlyTable ∧
    (tagFile "wan.csv" ceMeanOnlyTable).hasNetworkProfile = false ∧
    splitextBase "wan.csv" = "wan" ∧
    (tagFile "wan.csv" ceMeanOnlyTable).rows.map Row.networkProfile ≠
      ceMeanOnlyTable.rows.map (fun _ => splitextBase "wan.csv") :=
  ⟨rfl, rfl, rfl, rfl, by decide⟩

/-- C4 (amended): in the fallback combine path, a file whose table lacks
both the `networkProfile` column and the `networkMean` column is tagged,
before concatenation, with the profile name derived from its source
filename (the filename without its extension); tagging adds the column and
keeps every row. -/
theorem tagFile_tags_when_both_columns_missing
    (file : String) (t : Table)
    (h1 : t.hasNetworkProfile = false) (h2 : t.hasNetworkMean = false) :
    (tagFile file t).hasNetworkProfile = true ∧
    (tagFile file t).rows.all
      (fun r => decide (r.networkProfile = splitextBase file)) = true ∧
    (tagFile file t).rows.length = t.rows.length := by
  rw [tagFile, if_pos (show (!t.hasNetworkProfile && !t.hasNetworkMean) = true by
    rw [h1, h2]; rfl)]
  refine ⟨rfl, ?_, by simp⟩
  simp [List.all_eq_true]

theorem tagFile_tags_witness :
    (tagFile "wan.csv" ceBothMissingTable).hasNetworkProfile = true ∧
    (tagFile "wan.csv" ceBothMissingTable).rows.all
      (fun r => decide (r.networkProfile = splitextBase "wan.csv")) = true ∧
    (tagFile "wan.csv" ceBothMissingTable).rows.length =
      ceBothMissingTable.rows.length :=
  tagFile_tags_when_both_columns_missing "wan.csv" ceBothMissingTable rfl rfl

theorem lookup_eq_none_iff (l : List (String × Table)) (k : String) :
    l.lookup k = none ↔ k ∉ l.map Prod.fst := by
  induction l with
  | nil => simp [List.lookup]
  | cons a l ih =>
    cases a with
    | mk k2 v =>
      simp only [List.lookup, List.map_cons, List.mem_cons]
      cases h : (k == k2) with
      | true =>
        have hk : k = k2 := eq_of_beq h
        simp [hk]
      | false =>
        have hne : ¬ k = k2 := by
          intro hh
          subst hh
          simp at h
        simp [ih, hne]

theorem lookup_mem_of_nodup (l : List (String × Table)) (k : String) (t : Table)
    (hnd : (l.map Prod.fst).Nodup) (hmem : (k, t) ∈ l) : l.lookup k = some t := by
  induction l with
  | nil => cases hmem
  | cons a l ih =>
    cases a with
    | mk k2 v =>
      simp only [List.map_cons, List.nodup_cons] at hnd
      obtain ⟨hk2, hnd2⟩ := hnd
      rcases List.mem_cons.mp hmem with h | h
      · injection h with h1 h2
        subst h1
        subst h2
        simp [List.lookup]
      · have hne : ¬ k = k2 := by
          intro hh
          subst hh
          exact hk2 (List.mem_map.mpr ⟨(k, t), h, rfl⟩)
        have hb : (k == k2) = false := beq_eq_false_iff_ne.mpr hne
        simp only [List.lookup, hb]
        exact ih hnd2 h

/-- C7: the data loader returns the parsed table when the file exists under
the results directory and returns `none` when it does not; it is a total
function of the filesystem (it cannot throw for a missing file), leaving
the fallback decision to the caller. -/
theorem load_data_returns_table_or_none
    (files : List (String × Table)) (filename : String) (t : Table) :
    (load_data files filename = none ↔
      pathJoin RESULTS_DIR filename ∉ files.map Prod.fst) ∧
    ((files.map Prod.fst).Nodup →
      (pathJoin RESULTS_DIR filename, t) ∈ files →
      load_data files filename = some t) := by
  constructor
  · unfold load_data
    by_cases h : (files.map Prod.fst).contains (pathJoin RESULTS_DIR filename) = true
    · rw [if_pos h]
      exact lookup_eq_none_iff files (pathJoin RESULTS_DIR filename)
    · rw [if_neg h]
      have hnm : pathJoin RESULTS_DIR filename ∉ files.map Prod.fst := by
        intro hmem
        exact h (List.elem_eq_true_of_mem hmem)
      simp [hnm]
  · intro hnd hmem
    unfold load_data
    have hc : (files.map Prod.fst).contains (pathJoin RESULTS_DIR filename) = true :=
      List.elem_eq_true_of_mem
        (List.mem_map.mpr ⟨(pathJoin RESULTS_DIR filename, t), hmem, rfl⟩)
    rw [if_pos hc]
    exact lookup_mem_of_nodup files (pathJoin RESULTS_DIR filename) t hnd hmem

theorem load_data_witness :
    (load_data exFiles "all-experiments.csv" = none ↔
      pathJoin RESULTS_DIR "all-experiments.csv" ∉ exFiles.map Prod.fst) ∧
    load_data exFiles "all-experiments.csv" = some exTable :=
  ⟨(load_data_returns_table_or_none exFiles "all-experiments.csv" exTable).1,
   (load_data_returns_table_or_none exFiles "all-experiments.csv" exTable).2
     (by decide) (List.mem_cons_self _ _)⟩

theorem lastIdxOf_eq_none (c : Char) (l : List Char) (h : c ∉ l) :
    lastIdxOf c l = none := by
  induction l with
  | nil => rfl
  | cons x xs ih =>
    simp only [List.mem_cons, not_or] at h
    obtain ⟨h1, h2⟩ := h
    have hb : (x == c) = false := beq_eq_false_iff_ne.mpr (fun hh => h1 hh.symm)
    simp [lastIdxOf, ih h2, hb]

theorem lastIdxOf_append_cons (c : Char) (xs ys : List Char) (h : c ∉ ys) :
    lastIdxOf c (xs ++ c :: ys) = some xs.length := by
  induction xs with
  | nil =>
    simp [lastIdxOf, lastIdxOf_eq_none c ys h]
  | cons x xs ih =>
    simp [lastIdxOf, ih]

theorem dirname_pathJoin (dir name : String) (h : '/' ∉ name.data) :
    dirname (pathJoin dir name) = dir := by
  unfold dirname pathJoin
  have hdata : (dir ++ "/" ++ name).data = dir.data ++ '/' :: name.data := by
    rw [String.data_append, String.data_append]
    simp
  rw [hdata, lastIdxOf_append_cons '/' dir.data name.data h]
  simp only
  rw [List.take_left]

/-- C8 counterexample: the PNG emitted by the static-figure generator
`src/data/index.py` is saved as a bare filename, i.e. into the current
working directory, not into the visualizations output directory. -/
theorem index_output_not_in_visualizations :
    dirname indexFigOutput = "" ∧ dirname indexFigOutput ≠ OUTPUT_DIR :=
  ⟨by decide, by decide⟩

/-- C8 (amended): every PNG emitted by the result visualizer is written
into the visualizations output directory (created if absent), named by
profile and chart type; the static-figure generator instead writes its
single PNG to the current working directory. -/
theorem outputs_written_to_visualizations_dir
    (profile : String) (dirs : List String)
    (hs : '/' ∉ profile.data) :
    dirname (byzantineImpactOutput profile) = OUTPUT_DIR ∧
    dirname (heatmapOutput profile) = OUTPUT_DIR ∧
    dirname combinedOutput = OUTPUT_DIR ∧
    dirname normalizedScalingOutput = OUTPUT_DIR ∧
    dirname threeDOutput = OUTPUT_DIR ∧
    dirname comprehensiveOutput = OUTPUT_DIR ∧
    OUTPUT_DIR ∈ ensureOutputDir dirs ∧
    dirname indexFigOutput = "" := by
  refine ⟨?_, ?_, ?_, ?_, ?_, ?_, ?_, by decide⟩
  · apply dirname_pathJoin
    rw [String.data_append]
    intro hmem
    rcases List.mem_append.mp hmem with hm | hm
    · exact hs hm
    · exact (by decide : '/' ∉ "_byzantine_impact.png".data) hm
  · apply dirname_pathJoin
    rw [String.data_append]
    intro hmem
    rcases List.mem_append.mp hmem with hm | hm
    · exact hs hm
    · exact (by decide : '/' ∉ "_heatmap.png".data) hm
  · exact dirname_pathJoin _ _ (by decide)
  · exact dirname_pathJoin _ _ (by decide)
  · exact dirname_pathJoin _ _ (by decide)
  · exact dirname_pathJoin _ _ (by decide)
  · by_cases h : dirs.contains OUTPUT_DIR = true
    · rw [ensureOutputDir, if_pos h]
      exact List.mem_of_elem_eq_true h
    · rw [ensureOutputDir, if_neg h]
      exact List.mem_cons_self _ _

theorem outputs_written_witness :
    dirname (byzantineImpactOutput "wan") = OUTPUT_DIR ∧
    dirname (heatmapOutput "wan") = OUTPUT_DIR ∧
    dirname combinedOutput = OUTPUT_DIR ∧
    dirname normalizedScalingOutput = OUTPUT_DIR ∧
    dirname threeDOutput = OUTPUT_DIR ∧
    dirname comprehensiveOutput = OUTPUT_DIR ∧
    OUTPUT_DIR ∈ ensureOutputDir ["results"] ∧
    dirname indexFigOutput = "" :=
  outputs_written_to_visualizations_dir "wan" ["results"] (by decide)

theorem indexFig_bars_witness :
    (IndexFig.Bar.mk 0 0 ((IndexFig.column IndexFig.data 0).getD 0 0)
        ((IndexFig.column IndexFig.std_data 0).getD 0 0)).yerr
      = IndexFig.stdEntry 0 0 ∧
    (0 : ℚ) ≤ (IndexFig.Bar.mk 0 0 ((IndexFig.column IndexFig.data 0).getD 0 0)
        ((IndexFig.column IndexFig.std_data 0).getD 0 0)).yerr :=
  indexFig_bars_count_and_errorbars.2 _ (List.mem_cons_self _ _)
